import Mathlib

/-!
Verification of the streaming aggregation loop in
`src/consumers/consumer_hatfield.py` (Variant B, unique-reader tally),
against the repository's design specification.

Modelling conventions:
* JSON values are the inductive `Json`; `json.loads` is Python's standard
  library (an external collaborator), so a raw payload is modelled by its
  parse outcome `ParseResult`: `ok j` when the payload parses to the JSON
  value `j`, and `err` when parsing raises `json.JSONDecodeError`.
* The module-level mutable dictionary `reader_counts` (a
  `defaultdict(set)` keyed by `(author, title)` tuples) is modelled by the
  state type `Tally`, threaded explicitly through the functions; its
  initial value is the empty dictionary `reader_counts`.
* Python exceptions raised inside the `try` block of `process_message`
  are modelled by the `raised` component of `StepResult`; the two
  `except` clauses catch every such exception, which is why
  `process_message` itself is total and returns a plain `Tally`.
* Python hashability matters: `reader_counts[book_key]` hashes the key
  and `set.add(reader)` hashes the reader, and both raise `TypeError`
  on an unhashable value (a JSON array or object decodes to a Python
  `list` or `dict`, both unhashable).  `Json.hashable` captures this.
* Chart drawing (`update_chart`) and logging only read the state; they
  are outside the verified core and are not modelled.
-/

mutual
/-- A JSON value, as produced by `json.loads`: null, booleans, numbers,
strings, arrays and objects.  Numbers are modelled as integers; no claim
depends on numeric semantics, only on equality of decoded values. -/
inductive Json : Type where
  | null : Json
  | bool (b : Bool) : Json
  | num (n : Int) : Json
  | str (s : String) : Json
  | arr (elems : JsonList) : Json
  | obj (fields : JsonFields) : Json
deriving DecidableEq

/-- A list of JSON values (the contents of a JSON array). -/
inductive JsonList : Type where
  | nil : JsonList
  | cons (head : Json) (tail : JsonList) : JsonList
deriving DecidableEq

/-- The fields of a JSON object, in textual order.  `json.loads` keeps the
last occurrence of a duplicated key, which `dictGet?` reproduces. -/
inductive JsonFields : Type where
  | nil : JsonFields
  | cons (key : String) (value : Json) (tail : JsonFields) : JsonFields
deriving DecidableEq
end

/-- Whether the Python value a JSON value decodes to is hashable:
scalars and strings are, lists and dicts (from arrays and objects)
are not. -/
def Json.hashable : Json → Bool
  | Json.arr _ => false
  | Json.obj _ => false
  | _ => true

/-- Whether a JSON value is an object, i.e. decodes to a Python `dict`
(the `isinstance(message_dict, dict)` test on line 57). -/
def Json.isObj : Json → Bool
  | Json.obj _ => true
  | _ => false

/-- Lookup in a decoded JSON object, as Python `dict` lookup: the last
occurrence of a duplicated key wins, matching `json.loads`. -/
def dictGet? : JsonFields → String → Option Json
  | JsonFields.nil, _ => none
  | JsonFields.cons key v rest, k =>
      match dictGet? rest k with
      | some w => some w
      | none => if key = k then some v else none

/-- Python's `dict.get(k, default)`. -/
def dictGetD (fields : JsonFields) (k : String) (d : Json) : Json :=
  (dictGet? fields k).getD d

/-- Line 59: `author = message_dict.get("author", "Unknown Author")`. -/
def authorOf (fields : JsonFields) : Json :=
  dictGetD fields "author" (Json.str "Unknown Author")

/-- Line 60: `title = message_dict.get("title", "Unknown Title")`. -/
def titleOf (fields : JsonFields) : Json :=
  dictGetD fields "title" (Json.str "Unknown Title")

/-- Line 61: `reader = message_dict.get("reader", "Unknown Reader")`. -/
def readerOf (fields : JsonFields) : Json :=
  dictGetD fields "reader" (Json.str "Unknown Reader")

/-- A key of `reader_counts`: the `(author, title)` tuple of line 64. -/
abbrev BookKey := Json × Json

/-- Line 64: `book_key = (author, title)`. -/
def bookKeyOf (fields : JsonFields) : BookKey :=
  (authorOf fields, titleOf fields)

/-- The state of the module-level `reader_counts = defaultdict(set)`:
a dictionary from book keys to the set of readers seen for that book,
modelled as an association list (first occurrence of a key wins on
lookup and is the one replaced on update). -/
abbrev Tally := List (BookKey × Finset Json)

/-- Line 13: the initial, empty `reader_counts` dictionary. -/
def reader_counts : Tally := []

/-- Reading `reader_counts[k]` as a `defaultdict(set)` does: the stored
set when `k` is present, the empty set otherwise. -/
def lookupSet (st : Tally) (k : BookKey) : Finset Json :=
  match st with
  | [] => ∅
  | (k', s) :: rest => if k' = k then s else lookupSet rest k

/-- Storing a set under a key: replaces the set of the first entry with
that key, or appends a new entry when the key is absent (the effect of
`reader_counts[book_key].add(...)` and of `defaultdict` key creation). -/
def setReaders : Tally → BookKey → Finset Json → Tally
  | [], k, v => [(k, v)]
  | (k', s') :: rest, k, v =>
      if k' = k then (k, v) :: rest else (k', s') :: setReaders rest k v

/-- The keys currently present in the dictionary. -/
def tallyKeys (st : Tally) : List BookKey :=
  st.map Prod.fst

/-- A Python exception that can be raised inside the `try` block of
`process_message`. -/
inductive PyError : Type where
  | jsonDecodeError : PyError
  | typeError : PyError
deriving DecidableEq

/-- The result of a raw payload's trip through `json.loads` (an external
standard-library collaborator): the decoded JSON value, or `err` when the
payload is not valid JSON and `json.JSONDecodeError` is raised. -/
inductive ParseResult : Type where
  | ok (j : Json) : ParseResult
  | err : ParseResult
deriving DecidableEq

/-- What one execution of the `try` block of `process_message`
(lines 52-70) does: the tally state it leaves behind, the exception it
raises out of the block (if any), and how many times it executed the
tally-update statement `reader_counts[book_key].add(reader)` far enough
to touch the dictionary (i.e. with a hashable key). -/
structure StepResult : Type where
  tally : Tally
  raised : Option PyError
  updates : Nat
deriving DecidableEq

/-- The `try` block of `process_message`, lines 52-70.
* Invalid JSON: `json.loads` raises `JSONDecodeError`; no state change.
* A decoded non-object fails `isinstance(message_dict, dict)`; the block
  falls through with no state change and no exception.
* A decoded object: the three fields are read with their defaults and
  `reader_counts[book_key].add(reader)` runs.  Hashing an unhashable key
  raises `TypeError` before the dictionary is touched; with a hashable
  key, the `defaultdict` lookup materialises the entry, and `add` then
  either inserts a hashable reader or raises `TypeError`, leaving the
  materialised (unchanged) set behind. -/
def processBody (p : ParseResult) (st : Tally) : StepResult :=
  match p with
  | ParseResult.err => ⟨st, some PyError.jsonDecodeError, 0⟩
  | ParseResult.ok (Json.obj fields) =>
      if (authorOf fields).hashable && (titleOf fields).hashable then
        if (readerOf fields).hashable then
          ⟨setReaders st (bookKeyOf fields)
              (insert (readerOf fields) (lookupSet st (bookKeyOf fields))),
           none, 1⟩
        else
          ⟨setReaders st (bookKeyOf fields) (lookupSet st (bookKeyOf fields)),
           some PyError.typeError, 1⟩
      else
        ⟨st, some PyError.typeError, 0⟩
  | ParseResult.ok _ => ⟨st, none, 0⟩

/-- `process_message` (lines 46-75): runs the `try` block; the
`except json.JSONDecodeError` and `except Exception` clauses catch every
exception the block can raise and only log, so the function always
returns the state the block reached and never raises. -/
def process_message (p : ParseResult) (st : Tally) : Tally :=
  (processBody p st).tally

/-- Processing a whole sequence of received payloads in order, as the
`for message in consumer` loop does. -/
def processAll (ps : List ParseResult) (st : Tally) : Tally :=
  ps.foldl (fun s p => process_message p s) st

/-- How the stream of messages handed to `main`'s `for` loop ends:
normal end of stream, `KeyboardInterrupt`, or a source-level error
(an `Exception` from the Kafka consumer). -/
inductive StreamEnd : Type where
  | endOfStream : StreamEnd
  | keyboardInterrupt : StreamEnd
  | sourceError : StreamEnd
deriving DecidableEq

/-- The Kafka consumer handle, reduced to what the claims observe:
how many times `close()` has been called on it. -/
structure KafkaConsumer : Type where
  closeCalls : Nat
deriving DecidableEq

/-- Line 89: `create_kafka_consumer` yields a fresh handle. -/
def createKafkaConsumer : KafkaConsumer := ⟨0⟩

/-- Line 103: `consumer.close()`. -/
def KafkaConsumer.close (c : KafkaConsumer) : KafkaConsumer :=
  ⟨c.closeCalls + 1⟩

/-- The exception (if any) that the `for` loop of `main` raises,
depending on how the stream ends.  `process_message` itself never
raises, so only the iteration can. -/
def loopExc : StreamEnd → Option StreamEnd
  | StreamEnd.endOfStream => none
  | e => some e

/-- The `except KeyboardInterrupt` and `except Exception` clauses of
`main` (lines 98-101): both catch, log and fall through. -/
def catchHandlers : Option StreamEnd → Option StreamEnd
  | some StreamEnd.keyboardInterrupt => none
  | some StreamEnd.sourceError => none
  | e => e

/-- What `main` leaves behind: the final tally, the consumer handle
after the `finally` clause, and the exception escaping `main`'s
`try`/`except`/`finally`, if any. -/
structure MainResult : Type where
  tally : Tally
  consumer : KafkaConsumer
  raised : Option StreamEnd
deriving DecidableEq

/-- The source's `main` (lines 78-106), under a different name because
Lean reserves `main`: acquires the consumer handle, processes the
messages the stream yields before it ends, catches interruption and
source-level errors, and closes the handle in the `finally` clause on
every path. -/
def consumer_main (msgs : List ParseResult) (ending : StreamEnd) : MainResult :=
  let consumer := createKafkaConsumer
  let afterLoop := processAll msgs reader_counts
  let escaped := catchHandlers (loopExc ending)
  { tally := afterLoop, consumer := consumer.close, raised := escaped }

/-- Modelled from the spec: the repository's Variant A consumer (the
exclamation tally of spec section 4.2) is part of the repository but its
source file is not under `src/`; only the Variant B consumer is.  The
tally maps the two fixed category labels to counts. -/
structure ExclamationTally : Type where
  with_exclamation : Nat
  without_exclamation : Nat
deriving DecidableEq

/-- Modelled from the spec: read the `message` field of the decoded
record, defaulting to the empty string when absent. -/
def messageOf (fields : JsonFields) : Json :=
  dictGetD fields "message" (Json.str "")

/-- Modelled from the spec: the predicate of section 4.2, whether the
message string contains the marker character. -/
def messageHasBang (fields : JsonFields) : Bool :=
  match messageOf fields with
  | Json.str s => s.data.contains (Char.ofNat 33)
  | _ => false

/-- Modelled from the spec: the Variant A `apply(record)` operation —
if the message contains the marker, increment `with_exclamation`,
else increment `without_exclamation`. -/
def apply_exclamation (fields : JsonFields) (t : ExclamationTally) : ExclamationTally :=
  if messageHasBang fields then
    { t with with_exclamation := t.with_exclamation + 1 }
  else
    { t with without_exclamation := t.without_exclamation + 1 }

example : lookupSet [((Json.str "a", Json.str "t"), {Json.str "r"})]
    (Json.str "a", Json.str "t") = {Json.str "r"} := by decide

example : process_message (ParseResult.ok (Json.obj JsonFields.nil)) reader_counts
    = [((Json.str "Unknown Author", Json.str "Unknown Title"),
        {Json.str "Unknown Reader"})] := by decide

/-! Helper lemmas about the dictionary operations. -/

theorem lookupSet_setReaders_self (st : Tally) (k : BookKey) (v : Finset Json) :
    lookupSet (setReaders st k v) k = v := by
  induction st with
  | nil => simp [setReaders, lookupSet]
  | cons hd tl ih =>
    obtain ⟨a, s⟩ := hd
    by_cases ha : a = k
    · simp [setReaders, ha, lookupSet]
    · simp [setReaders, ha, lookupSet, ih]

theorem lookupSet_setReaders_ne (st : Tally) (k k' : BookKey) (v : Finset Json)
    (h : k' ≠ k) : lookupSet (setReaders st k v) k' = lookupSet st k' := by
  induction st with
  | nil => simp [setReaders, lookupSet, Ne.symm h]
  | cons hd tl ih =>
    obtain ⟨a, s⟩ := hd
    by_cases ha : a = k
    · subst ha
      simp [setReaders, lookupSet, Ne.symm h]
    · simp only [setReaders, if_neg ha, lookupSet]
      by_cases hk : a = k'
      · simp [hk]
      · simp [hk, ih]

theorem setReaders_setReaders (st : Tally) (k : BookKey) (v w : Finset Json) :
    setReaders (setReaders st k v) k w = setReaders st k w := by
  induction st with
  | nil => simp [setReaders]
  | cons hd tl ih =>
    obtain ⟨a, s⟩ := hd
    by_cases ha : a = k
    · simp [setReaders, ha]
    · simp [setReaders, ha, ih]

theorem mem_tallyKeys_setReaders (st : Tally) (k k' : BookKey) (v : Finset Json)
    (h : k' ∈ tallyKeys st) : k' ∈ tallyKeys (setReaders st k v) := by
  induction st with
  | nil => simp [tallyKeys] at h
  | cons hd tl ih =>
    obtain ⟨a, s⟩ := hd
    simp only [tallyKeys, List.map_cons, List.mem_cons] at h
    by_cases ha : a = k
    · subst ha
      simp only [setReaders, if_pos rfl, tallyKeys, List.map_cons, List.mem_cons]
      simpa using h
    · simp only [setReaders, if_neg ha, tallyKeys, List.map_cons, List.mem_cons]
      rcases h with h | h
      · exact Or.inl h
      · exact Or.inr (by simpa [tallyKeys] using ih (by simpa [tallyKeys] using h))

theorem lookupSet_subset_step (p : ParseResult) (st : Tally) (k : BookKey) :
    lookupSet st k ⊆ lookupSet (process_message p st) k := by
  cases p with
  | err => exact Finset.Subset.refl _
  | ok j =>
    cases j with
    | obj fields =>
      simp only [process_message, processBody]
      by_cases hA : ((authorOf fields).hashable && (titleOf fields).hashable) = true
      · by_cases hR : (readerOf fields).hashable = true
        · simp only [hA, hR, if_true]
          by_cases hk : k = bookKeyOf fields
          · subst hk
            rw [lookupSet_setReaders_self]
            exact Finset.subset_insert _ _
          · rw [lookupSet_setReaders_ne _ _ _ _ hk]
        · rw [if_pos hA, if_neg hR]
          by_cases hk : k = bookKeyOf fields
          · subst hk
            show lookupSet st _ ⊆
              lookupSet (setReaders st (bookKeyOf fields) (lookupSet st (bookKeyOf fields)))
                (bookKeyOf fields)
            rw [lookupSet_setReaders_self]
          · show lookupSet st k ⊆
              lookupSet (setReaders st (bookKeyOf fields) (lookupSet st (bookKeyOf fields))) k
            rw [lookupSet_setReaders_ne _ _ _ _ hk]
      · simp [hA]
    | null => exact Finset.Subset.refl _
    | bool b => exact Finset.Subset.refl _
    | num n => exact Finset.Subset.refl _
    | str s => exact Finset.Subset.refl _
    | arr xs => exact Finset.Subset.refl _

theorem mem_tallyKeys_step (p : ParseResult) (st : Tally) (k : BookKey)
    (h : k ∈ tallyKeys st) : k ∈ tallyKeys (process_message p st) := by
  cases p with
  | err => exact h
  | ok j =>
    cases j with
    | obj fields =>
      simp only [process_message, processBody]
      by_cases hA : ((authorOf fields).hashable && (titleOf fields).hashable) = true
      · by_cases hR : (readerOf fields).hashable = true
        · simp only [hA, hR, if_true]
          exact mem_tallyKeys_setReaders _ _ _ _ h
        · simp only [hA, hR, if_true, if_false]
          exact mem_tallyKeys_setReaders _ _ _ _ h
      · simp only [hA, if_false]
        exact h
    | null => exact h
    | bool b => exact h
    | num n => exact h
    | str s => exact h
    | arr xs => exact h

theorem lookupSet_subset_processAll (ps : List ParseResult) (st : Tally) (k : BookKey) :
    lookupSet st k ⊆ lookupSet (processAll ps st) k := by
  induction ps generalizing st with
  | nil => exact Finset.Subset.refl _
  | cons p ps ih =>
    have h1 := lookupSet_subset_step p st k
    have h2 := ih (process_message p st)
    simpa [processAll] using h1.trans h2

theorem mem_tallyKeys_processAll (ps : List ParseResult) (st : Tally) (k : BookKey)
    (h : k ∈ tallyKeys st) : k ∈ tallyKeys (processAll ps st) := by
  induction ps generalizing st with
  | nil => exact h
  | cons p ps ih =>
    have h1 := mem_tallyKeys_step p st k h
    simpa [processAll] using ih (process_message p st) h1

theorem process_message_idem (p : ParseResult) (st : Tally) :
    process_message p (process_message p st) = process_message p st := by
  cases p with
  | err => rfl
  | ok j =>
    cases j with
    | obj fields =>
      simp only [process_message, processBody]
      by_cases hA : ((authorOf fields).hashable && (titleOf fields).hashable) = true
      · by_cases hR : (readerOf fields).hashable = true
        · simp [hA, hR, lookupSet_setReaders_self, setReaders_setReaders,
            Finset.insert_idem]
        · simp [hA, hR, lookupSet_setReaders_self, setReaders_setReaders]
      · simp [hA]
    | null => rfl
    | bool b => rfl
    | num n => rfl
    | str s => rfl
    | arr xs => rfl

theorem iterate_process_message_fix (p : ParseResult) (m : Nat) (st : Tally) :
    (fun s => process_message p s)^[m] (process_message p st)
      = process_message p st := by
  induction m generalizing st with
  | zero => rfl
  | succ l ih =>
    rw [Function.iterate_succ_apply]
    show (fun s => process_message p s)^[l]
        (process_message p (process_message p st)) = _
    rw [process_message_idem]
    exact ih st

/-! Claim theorems. -/

/-- C1: applying `process_message` N times (N ≥ 1) with a record carrying
the same author, title and reader leaves the reader set for that record's
`(author, title)` key with the same cardinality as after the first
application — adding an already-present reader does not change the set. -/
theorem repeated_process_message_card (fields : JsonFields) (st : Tally)
    (n : Nat) (h : 1 ≤ n) :
    (lookupSet
        ((fun s => process_message (ParseResult.ok (Json.obj fields)) s)^[n] st)
        (bookKeyOf fields)).card
      = (lookupSet (process_message (ParseResult.ok (Json.obj fields)) st)
          (bookKeyOf fields)).card := by
  obtain ⟨m, rfl⟩ : ∃ m, n = m + 1 := ⟨n - 1, by omega⟩
  rw [Function.iterate_succ_apply]
  show (lookupSet
      ((fun s => process_message (ParseResult.ok (Json.obj fields)) s)^[m]
        (process_message (ParseResult.ok (Json.obj fields)) st))
      (bookKeyOf fields)).card = _
  rw [iterate_process_message_fix]

/-- Witness for C1 at a concrete record, state and repetition count. -/
theorem repeated_process_message_card_witness :
    1 ≤ 3 ∧
    (lookupSet
        ((fun s => process_message
            (ParseResult.ok (Json.obj (JsonFields.cons "author" (Json.str "A")
              (JsonFields.cons "title" (Json.str "T")
                (JsonFields.cons "reader" (Json.str "X") JsonFields.nil))))) s)^[3]
          reader_counts)
        (bookKeyOf (JsonFields.cons "author" (Json.str "A")
          (JsonFields.cons "title" (Json.str "T")
            (JsonFields.cons "reader" (Json.str "X") JsonFields.nil))))).card
      = (lookupSet
          (process_message
            (ParseResult.ok (Json.obj (JsonFields.cons "author" (Json.str "A")
              (JsonFields.cons "title" (Json.str "T")
                (JsonFields.cons "reader" (Json.str "X") JsonFields.nil)))))
            reader_counts)
          (bookKeyOf (JsonFields.cons "author" (Json.str "A")
            (JsonFields.cons "title" (Json.str "T")
              (JsonFields.cons "reader" (Json.str "X") JsonFields.nil))))).card :=
  ⟨by decide, repeated_process_message_card _ reader_counts 3 (by decide)⟩

/-- C2: a payload that parses to a key-value record containing none of
the fields author, title, reader still mutates the tally: the key
(Unknown Author, Unknown Title) gains the reader Unknown Reader. -/
theorem missing_fields_use_defaults (fields : JsonFields) (st : Tally)
    (ha : dictGet? fields "author" = none)
    (ht : dictGet? fields "title" = none)
    (hr : dictGet? fields "reader" = none) :
    lookupSet (process_message (ParseResult.ok (Json.obj fields)) st)
        (Json.str "Unknown Author", Json.str "Unknown Title")
      = insert (Json.str "Unknown Reader")
          (lookupSet st (Json.str "Unknown Author", Json.str "Unknown Title")) := by
  have hA : authorOf fields = Json.str "Unknown Author" := by
    simp [authorOf, dictGetD, ha]
  have hT : titleOf fields = Json.str "Unknown Title" := by
    simp [titleOf, dictGetD, ht]
  have hR : readerOf fields = Json.str "Unknown Reader" := by
    simp [readerOf, dictGetD, hr]
  simp [process_message, processBody, bookKeyOf, hA, hT, hR, Json.hashable,
    lookupSet_setReaders_self]

/-- Witness for C2 at a concrete record with an unrelated field. -/
theorem missing_fields_use_defaults_witness :
    dictGet? (JsonFields.cons "other" Json.null JsonFields.nil) "author" = none ∧
    dictGet? (JsonFields.cons "other" Json.null JsonFields.nil) "title" = none ∧
    dictGet? (JsonFields.cons "other" Json.null JsonFields.nil) "reader" = none ∧
    lookupSet
        (process_message
          (ParseResult.ok (Json.obj (JsonFields.cons "other" Json.null JsonFields.nil)))
          reader_counts)
        (Json.str "Unknown Author", Json.str "Unknown Title")
      = insert (Json.str "Unknown Reader")
          (lookupSet reader_counts
            (Json.str "Unknown Author", Json.str "Unknown Title")) :=
  ⟨by decide, by decide, by decide,
    missing_fields_use_defaults _ reader_counts (by decide) (by decide) (by decide)⟩

/-- C3: an input string that is not valid JSON makes `json.loads` raise
`JSONDecodeError`; `process_message` catches it (it is total, returning
a plain state rather than an exception) and leaves the tally unchanged. -/
theorem invalid_json_leaves_tally_unchanged (st : Tally) :
    process_message ParseResult.err st = st := rfl

/-- C4: a payload that parses successfully to a value that is not a
key-value structure performs no tally mutation, and the try block raises
no error at all. -/
theorem non_dict_payload_no_mutation (j : Json) (st : Tally)
    (h : j.isObj = false) :
    process_message (ParseResult.ok j) st = st
      ∧ (processBody (ParseResult.ok j) st).raised = none := by
  cases j <;> simp_all [Json.isObj, process_message, processBody]

/-- Witness for C4 on the bare-number payload 5. -/
theorem non_dict_payload_no_mutation_witness :
    (Json.num 5).isObj = false
      ∧ process_message (ParseResult.ok (Json.num 5)) reader_counts = reader_counts
      ∧ (processBody (ParseResult.ok (Json.num 5)) reader_counts).raised = none :=
  ⟨by decide,
    (non_dict_payload_no_mutation (Json.num 5) reader_counts (by decide)).1,
    (non_dict_payload_no_mutation (Json.num 5) reader_counts (by decide)).2⟩

/-- C5: across any sequence of processed messages the cardinality of the
reader set of every key is non-decreasing, and a reader already present
for a key is counted once — processing a record whose reader is already
in its key's set leaves the cardinality unchanged. -/
theorem reader_card_monotone (ps : List ParseResult) (st : Tally) (k : BookKey) :
    (lookupSet st k).card ≤ (lookupSet (processAll ps st) k).card
    ∧ ∀ (fields : JsonFields) (st' : Tally),
        readerOf fields ∈ lookupSet st' (bookKeyOf fields) →
        (lookupSet (process_message (ParseResult.ok (Json.obj fields)) st')
            (bookKeyOf fields)).card
          = (lookupSet st' (bookKeyOf fields)).card := by
  constructor
  · exact Finset.card_le_card (lookupSet_subset_processAll ps st k)
  · intro fields st' hmem
    simp only [process_message, processBody]
    by_cases hA : ((authorOf fields).hashable && (titleOf fields).hashable) = true
    · by_cases hR : (readerOf fields).hashable = true
      · rw [if_pos hA, if_pos hR]
        show (lookupSet (setReaders st' (bookKeyOf fields)
            (insert (readerOf fields) (lookupSet st' (bookKeyOf fields))))
            (bookKeyOf fields)).card = _
        rw [lookupSet_setReaders_self, Finset.insert_eq_self.mpr hmem]
      · rw [if_pos hA, if_neg hR]
        show (lookupSet (setReaders st' (bookKeyOf fields)
            (lookupSet st' (bookKeyOf fields))) (bookKeyOf fields)).card = _
        rw [lookupSet_setReaders_self]
    · rw [if_neg hA]

/-- C6 counterexample: the payload "5" parses successfully (it is not a
decode error) yet `process_message` performs no tally update, so a
successful parse does not imply exactly one mutation. -/
theorem scalar_payload_breaks_one_update_per_parse :
    ParseResult.ok (Json.num 5) ≠ ParseResult.err
      ∧ ¬ (processBody (ParseResult.ok (Json.num 5)) reader_counts).updates = 1 := by
  decide

/-- C6 amended: the tally starts empty; a decode failure performs no
tally update; a payload decoding to a non-object performs none; a payload
decoding to an object performs exactly one update when its extracted
author and title values are hashable, and none otherwise. -/
theorem tally_update_discipline :
    reader_counts = ([] : Tally)
    ∧ (∀ st : Tally, (processBody ParseResult.err st).updates = 0)
    ∧ (∀ (st : Tally) (j : Json), j.isObj = false →
        (processBody (ParseResult.ok j) st).updates = 0)
    ∧ (∀ (st : Tally) (fields : JsonFields),
        (processBody (ParseResult.ok (Json.obj fields)) st).updates
          = if (authorOf fields).hashable && (titleOf fields).hashable
            then 1 else 0) := by
  refine ⟨rfl, fun st => rfl, ?_, ?_⟩
  · intro st j h
    cases j <;> simp_all [Json.isObj, processBody]
  · intro st fields
    simp only [processBody]
    by_cases hA : ((authorOf fields).hashable && (titleOf fields).hashable) = true
    · by_cases hR : (readerOf fields).hashable = true
      · rw [if_pos hA, if_pos hR, if_pos hA]
      · rw [if_pos hA, if_neg hR, if_pos hA]
    · rw [if_neg hA, if_neg hA]

/-- C7: on every exit path of the driving loop — normal end of stream,
KeyboardInterrupt, or any other source-level error — `main` closes the
consumer handle exactly once and re-raises nothing past the loop. -/
theorem main_closes_once_and_catches (msgs : List ParseResult)
    (ending : StreamEnd) :
    (consumer_main msgs ending).consumer.closeCalls = 1
      ∧ (consumer_main msgs ending).raised = none := by
  refine ⟨rfl, ?_⟩
  cases ending <;> rfl

/-- C8: the Variant A aggregator tallies the record with message
"Hello!" followed by the record with message "Hi" to the final counts
with_exclamation = 1 and without_exclamation = 1, and it increments
with_exclamation exactly when the message contains the marker. -/
theorem variant_a_exclamation_tally :
    apply_exclamation (JsonFields.cons "message" (Json.str "Hi") JsonFields.nil)
        (apply_exclamation
          (JsonFields.cons "message" (Json.str "Hello!") JsonFields.nil)
          ⟨0, 0⟩)
      = ⟨1, 1⟩
    ∧ ∀ (fields : JsonFields) (t : ExclamationTally),
        ((apply_exclamation fields t).with_exclamation = t.with_exclamation + 1
          ∧ (apply_exclamation fields t).without_exclamation
              = t.without_exclamation)
        ↔ messageHasBang fields = true := by
  constructor
  · decide
  · intro fields t
    by_cases h : messageHasBang fields = true
    · simp [apply_exclamation, h]
    · simp [apply_exclamation, h]

/-- C9: fields of a decoded record other than author, title and reader
have no effect — two object payloads agreeing on those three fields
(including their absence) produce the same step from the same state. -/
theorem only_three_fields_matter (f1 f2 : JsonFields) (st : Tally)
    (ha : dictGet? f1 "author" = dictGet? f2 "author")
    (ht : dictGet? f1 "title" = dictGet? f2 "title")
    (hr : dictGet? f1 "reader" = dictGet? f2 "reader") :
    processBody (ParseResult.ok (Json.obj f1)) st
      = processBody (ParseResult.ok (Json.obj f2)) st := by
  have hA : authorOf f1 = authorOf f2 := by simp [authorOf, dictGetD, ha]
  have hT : titleOf f1 = titleOf f2 := by simp [titleOf, dictGetD, ht]
  have hR : readerOf f1 = readerOf f2 := by simp [readerOf, dictGetD, hr]
  simp only [processBody, bookKeyOf, hA, hT, hR]

/-- Witness for C9: a record with an extra field behaves as one without. -/
theorem only_three_fields_matter_witness :
    dictGet? (JsonFields.cons "author" (Json.str "A")
        (JsonFields.cons "extra" Json.null JsonFields.nil)) "author"
      = dictGet? (JsonFields.cons "author" (Json.str "A") JsonFields.nil) "author"
    ∧ dictGet? (JsonFields.cons "author" (Json.str "A")
        (JsonFields.cons "extra" Json.null JsonFields.nil)) "title"
      = dictGet? (JsonFields.cons "author" (Json.str "A") JsonFields.nil) "title"
    ∧ dictGet? (JsonFields.cons "author" (Json.str "A")
        (JsonFields.cons "extra" Json.null JsonFields.nil)) "reader"
      = dictGet? (JsonFields.cons "author" (Json.str "A") JsonFields.nil) "reader"
    ∧ processBody (ParseResult.ok (Json.obj (JsonFields.cons "author" (Json.str "A")
          (JsonFields.cons "extra" Json.null JsonFields.nil)))) reader_counts
      = processBody (ParseResult.ok (Json.obj
          (JsonFields.cons "author" (Json.str "A") JsonFields.nil))) reader_counts :=
  ⟨by decide, by decide, by decide,
    only_three_fields_matter _ _ reader_counts (by decide) (by decide) (by decide)⟩

/-- C10: a key present in the tally stays present, and its reader set
only grows, across any further sequence of processed messages. -/
theorem keys_persist_and_sets_grow (ps : List ParseResult) (st : Tally)
    (k : BookKey) (h : k ∈ tallyKeys st) :
    k ∈ tallyKeys (processAll ps st)
      ∧ lookupSet st k ⊆ lookupSet (processAll ps st) k :=
  ⟨mem_tallyKeys_processAll ps st k h, lookupSet_subset_processAll ps st k⟩

/-- Witness for C10 on a one-entry tally and a one-message sequence. -/
theorem keys_persist_and_sets_grow_witness :
    (Json.str "A", Json.str "T")
        ∈ tallyKeys [((Json.str "A", Json.str "T"), {Json.str "X"})]
    ∧ ((Json.str "A", Json.str "T")
        ∈ tallyKeys (processAll [ParseResult.ok (Json.obj JsonFields.nil)]
            [((Json.str "A", Json.str "T"), {Json.str "X"})])
      ∧ lookupSet [((Json.str "A", Json.str "T"), {Json.str "X"})]
            (Json.str "A", Json.str "T")
          ⊆ lookupSet (processAll [ParseResult.ok (Json.obj JsonFields.nil)]
              [((Json.str "A", Json.str "T"), {Json.str "X"})])
            (Json.str "A", Json.str "T")) :=
  ⟨by decide,
    keys_persist_and_sets_grow [ParseResult.ok (Json.obj JsonFields.nil)]
      [((Json.str "A", Json.str "T"), {Json.str "X"})]
      (Json.str "A", Json.str "T") (by decide)⟩
